import Mathlib

/-!
# A verification development for the quant-bigA backtesting core

This file gives a shallow embedding, over the rationals, of the position
ledger, the strategy state machines (`DcaTradingStrategy` "v1",
`DcaTradingStrategyV2` "v2", `DcaOnlyStrategy`, and the shared pieces of
`BaseStrategy`), the regime-flag join performed by
`backtesting/dca_trading_backtest.py`, and the drawdown computations of the
performance reporters.  Python float arithmetic is modelled by exact
rational arithmetic; Python `int()` truncation is modelled by `pyInt`;
the `NaN` that a pandas left join leaves in a regime-flag column on a date
miss is modelled by `Option Bool` cells (`none` = NaN), together with
Python truthiness (`bool(nan)` is `True`).

Each strategy works symbol by symbol and every claim below is about a
single symbol's books, so the state carries one accumulation (DCA)
position and one tactical (T) position rather than a symbol-indexed map;
the lazily-created per-symbol entries of the source are the zero-valued
initial values here.
-/

unseal Rat.mul Rat.inv Rat.add Rat.sub Rat.ofScientific

namespace QuantBigA

/-- Python `int(x)` truncation toward zero, on an exact rational. -/
def pyInt (q : ℚ) : ℤ := q.num.tdiv (q.den : ℤ)

/-- Strategy configuration, fixed at construction (`__init__` of the
strategies).  The v2 strategy reads `dca_amount_per_week` and
`t_amount_per_trade` as its *base* amounts (`base_dca_amount_per_week`,
`base_t_amount_per_trade`). -/
structure Params where
  total_capital : ℚ
  dca_ratio : ℚ
  dca_amount_per_week : ℚ
  t_amount_per_trade : ℚ
  max_loss_ratio : ℚ
  profit_target : ℚ
  commission : ℚ
  slippage : ℚ
deriving DecidableEq

/-- The documented defaults of `DcaTradingStrategy.__init__`. -/
def defaultParams : Params :=
  { total_capital := 500000
    dca_ratio := 0.7
    dca_amount_per_week := 1000
    t_amount_per_trade := 5000
    max_loss_ratio := 0.03
    profit_target := 0.01
    commission := 0.0003
    slippage := 0.001 }

/-- `_calculate_commission` (identical in `BaseStrategy`,
`DcaTradingStrategy` and `DcaTradingStrategyV2`):
`max(amount * rate, 5.0)`. -/
def calculate_commission (rate amount : ℚ) : ℚ :=
  max (amount * rate) 5

/-- `DcaTradingStrategy._calculate_shares` (same text in v2): round the
affordable share count down to a lot of 100, after subtracting the
commission charged on the intended amount and pricing at
`price * (1 + slippage)`. -/
def calculate_shares (P : Params) (amount price : ℚ) : ℚ :=
  let actual_price := price * (1 + P.slippage)
  let commission := calculate_commission P.commission amount
  let available_amount := amount - commission
  let shares := available_amount / actual_price
  (pyInt (shares / 100) * 100 : ℤ)

/-- `DcaOnlyStrategy._calculate_shares`: plain integer truncation of
`(amount + commission) / (price * (1 + slippage))`, clamped at 0.  Note
the commission is *added* to the intended amount before dividing. -/
def dcaOnly_calculate_shares (P : Params) (amount price : ℚ) : ℚ :=
  let commission := calculate_commission P.commission amount
  let total_cost := amount + commission
  let shares := (pyInt (total_cost / (price * (1 + P.slippage))) : ℚ)
  max shares 0

/-- Trade side. -/
inductive Side
  | buy
  | sell
deriving DecidableEq

/-- Which sub-account a trade or position belongs to (the `strategy` tag
`'dca'` / `'t'` in the source). -/
inductive Book
  | dca
  | t
deriving DecidableEq

/-- One trade record, as appended by `_execute_buy` / `_execute_sell`.
`amount` is the total cash debit (buys, commission included) or the net
cash credit (sells, commission deducted); `profit` is only present on
sell records. -/
structure Trade where
  date : ℕ
  side : Side
  book : Book
  shares : ℚ
  price : ℚ
  amount : ℚ
  profit : Option ℚ
  cash_after : ℚ
deriving DecidableEq

/-- One sub-account position for the single symbol under test.
`entry_date` is only meaningful for the tactical book. -/
structure Position where
  shares : ℚ
  cost : ℚ
  avg_price : ℚ
  entry_date : Option ℕ
deriving DecidableEq

/-- A daily NAV snapshot.  The `BaseStrategy._record_daily_nav` rows carry
the bar price (`price := some p`); the rows the v1/v2 strategies append
themselves do not have that key (`price := none`). -/
structure DailyNav where
  date : ℕ
  price : Option ℚ
  dca_cash : ℚ
  t_cash : ℚ
  dca_value : ℚ
  t_value : ℚ
  total_value : ℚ
  total_return : ℚ
deriving DecidableEq

/-- One `daily_position_info` row of `BaseStrategy._record_daily_nav`
(amounts are divided by 10000 in the source). -/
structure PositionInfo where
  date : ℕ
  position : ℚ
  buy_amount : ℚ
  sell_amount : ℚ
deriving DecidableEq

/-- The four benchmark regime-flag cells as they arrive in `bar_data`
after the engine's left join: `some b` is an actual boolean from a
matching benchmark row, `none` is the NaN that the join leaves when the
bar's date has no benchmark row. -/
structure IndexData where
  drop_2 : Option Bool
  drop_1 : Option Bool
  drop_2_rebound_03 : Option Bool
  drop_1_rebound_02 : Option Bool
deriving DecidableEq

/-- Python truthiness of a regime cell: `bool(float('nan'))` is `True`,
so a NaN cell passes an `if index_data.get(...)` test. -/
def pyTruthy : Option Bool → Bool
  | none => true
  | some b => b

/-- One bar of `bar_data` as the strategies read it: close price and the
indicator fields accessed via `bar_data.get(...)`.  The calendar date is
passed separately (as in `on_bar(bar_data, date)`) as a day ordinal, with
`date % 7 = 0` meaning Monday (`datetime.weekday() == 0`). -/
structure Bar where
  close : ℚ
  macd_hist : ℚ
  macd_hist_prev : ℚ
  macd_hist_prev2 : ℚ
  volume_ratio : ℚ
  is_yang : Bool
  is_volume_surge : Bool
  is_uptrend : Bool
  is_downtrend : Bool
  atr : ℚ
  ma5 : ℚ
  ma10 : ℚ
  index_data : IndexData
deriving DecidableEq

/-- The whole mutable state of one strategy instance (for one symbol):
both sub-account positions and cash balances, the trade logs, the daily
NAV series, the lazily-created partial-liquidation counter
(`self._sell_count[symbol]`, 0 before first use), and the
`BaseStrategy` daily buy/sell recording fields. -/
structure StratState where
  dca_pos : Position
  t_pos : Position
  dca_cash : ℚ
  t_cash : ℚ
  trades : List Trade
  dca_trades : List Trade
  t_trades : List Trade
  daily_nav : List DailyNav
  sell_count : ℕ
  daily_position_info : List PositionInfo
  daily_buy_amount : ℚ
  daily_sell_amount : ℚ
deriving DecidableEq

/-- The zero position every symbol entry starts from. -/
def initPosition : Position :=
  { shares := 0, cost := 0, avg_price := 0, entry_date := none }

/-- The sub-account cash a book owns. -/
def cashOf (book : Book) (s : StratState) : ℚ :=
  match book with
  | .dca => s.dca_cash
  | .t => s.t_cash

/-- The position a book owns. -/
def posOf (book : Book) (s : StratState) : Position :=
  match book with
  | .dca => s.dca_pos
  | .t => s.t_pos

/-- The per-book trade log. -/
def tradesOf (book : Book) (s : StratState) : List Trade :=
  match book with
  | .dca => s.dca_trades
  | .t => s.t_trades

/-- `DcaTradingStrategy._execute_buy` (the same arithmetic as
`BaseStrategy._execute_buy` and the v2 copy, without the
`daily_buy_amount` update that only the `BaseStrategy`/v2 versions
perform): charge `shares * price` plus commission, update the position's
cumulative shares/cost and recomputed average price, stamp `entry_date`
on the tactical book, debit the sub-account cash unconditionally — there
is no affordability check in the source — and append the trade. -/
def execute_buy (P : Params) (s : StratState) (book : Book)
    (shares price : ℚ) (date : ℕ) : StratState :=
  let position := posOf book s
  let cash := cashOf book s
  let amount := shares * price
  let cost := amount + calculate_commission P.commission amount
  let total_shares := position.shares + shares
  let total_cost := position.cost + cost
  let avg_price := if total_shares > 0 then total_cost / total_shares else 0
  let position' : Position :=
    { shares := total_shares
      cost := total_cost
      avg_price := avg_price
      entry_date := if book = .t then some date else position.entry_date }
  let cash' := cash - cost
  let trade : Trade :=
    { date := date, side := .buy, book := book, shares := shares
      price := price, amount := cost, profit := none, cash_after := cash' }
  match book with
  | .dca =>
      { s with dca_pos := position', dca_cash := cash'
               dca_trades := s.dca_trades ++ [trade]
               trades := s.trades ++ [trade] }
  | .t =>
      { s with t_pos := position', t_cash := cash'
               t_trades := s.t_trades ++ [trade]
               trades := s.trades ++ [trade] }

/-- `BaseStrategy._execute_buy` = the common buy, plus the
`daily_buy_amount += cost` bookkeeping line (v2's own copy is
identical). -/
def execute_buy_base (P : Params) (s : StratState) (book : Book)
    (shares price : ℚ) (date : ℕ) : StratState :=
  let cost := shares * price + calculate_commission P.commission (shares * price)
  let s' := execute_buy P s book shares price date
  { s' with daily_buy_amount := s.daily_buy_amount + cost }

/-- `DcaTradingStrategy._execute_sell`: credit `shares * price` minus
commission, release cost basis proportionally to the share fraction sold,
recompute the average price, clear `entry_date` on the tactical book, and
append the trade with its realized profit. -/
def execute_sell (P : Params) (s : StratState) (book : Book)
    (shares price : ℚ) (date : ℕ) : StratState :=
  let position := posOf book s
  let cash := cashOf book s
  let amount := shares * price
  let commission := calculate_commission P.commission amount
  let net_amount := amount - commission
  let cost_ratio := shares / position.shares
  let cost_amount := position.cost * cost_ratio
  let shares' := position.shares - shares
  let cost' := position.cost - cost_amount
  let position' : Position :=
    { shares := shares'
      cost := cost'
      avg_price := if shares' > 0 then cost' / shares' else 0
      entry_date := if book = .t then none else position.entry_date }
  let cash' := cash + net_amount
  let trade : Trade :=
    { date := date, side := .sell, book := book, shares := shares
      price := price, amount := net_amount
      profit := some (net_amount - cost_amount), cash_after := cash' }
  match book with
  | .dca =>
      { s with dca_pos := position', dca_cash := cash'
               dca_trades := s.dca_trades ++ [trade]
               trades := s.trades ++ [trade] }
  | .t =>
      { s with t_pos := position', t_cash := cash'
               t_trades := s.t_trades ++ [trade]
               trades := s.trades ++ [trade] }

/-- `DcaTradingStrategyV2._execute_sell` = the common sell, plus the
`daily_sell_amount += net_amount` bookkeeping line. -/
def execute_sell_v2 (P : Params) (s : StratState) (book : Book)
    (shares price : ℚ) (date : ℕ) : StratState :=
  let net_amount := shares * price - calculate_commission P.commission (shares * price)
  let s' := execute_sell P s book shares price date
  { s' with daily_sell_amount := s.daily_sell_amount + net_amount }

/-- `BaseStrategy._execute_sell` (the second definition in the class body,
which shadows the first): cost basis released is `avg_price * shares`,
the average price is zeroed only when the share count reaches exactly 0,
and `entry_date` is not touched.  Used by `DcaOnlyStrategy`. -/
def base_execute_sell (P : Params) (s : StratState) (book : Book)
    (shares price : ℚ) (date : ℕ) : StratState :=
  let position := posOf book s
  let cash := cashOf book s
  let amount := shares * price
  let cost_amount := position.avg_price * shares
  let commission := calculate_commission P.commission amount
  let net_amount := amount - commission
  let profit := net_amount - cost_amount
  let shares' := position.shares - shares
  let cost' := position.cost - cost_amount
  let position' : Position :=
    { shares := shares'
      cost := cost'
      avg_price := if shares' = 0 then 0 else position.avg_price
      entry_date := position.entry_date }
  let cash' := cash + net_amount
  let trade : Trade :=
    { date := date, side := .sell, book := book, shares := shares
      price := price, amount := net_amount
      profit := some profit, cash_after := cash' }
  match book with
  | .dca =>
      { s with dca_pos := position', dca_cash := cash'
               dca_trades := s.dca_trades ++ [trade]
               trades := s.trades ++ [trade] }
  | .t =>
      { s with t_pos := position', t_cash := cash'
               t_trades := s.t_trades ++ [trade]
               trades := s.trades ++ [trade] }

/-- `DcaTradingStrategy._execute_dca_logic`: on Mondays, when the DCA
cash covers the weekly amount and the lot-rounded share count is
positive, buy; afterwards (on the state the buy may already have
updated, but with the profit ratio computed *before* the buy, as in the
source order) evaluate the partial-liquidation trigger, capped by the
per-symbol `_sell_count < 3`. -/
def v1_execute_dca_logic (P : Params) (s : StratState) (bar : Bar)
    (date : ℕ) : StratState :=
  let price := bar.close
  let position := s.dca_pos
  let profit_ratio :=
    if position.shares > 0 then
      (position.shares * price - position.cost) / position.cost
    else 0
  let is_first_day_of_week := date % 7 = 0
  let s1 :=
    if is_first_day_of_week ∧ s.dca_cash ≥ P.dca_amount_per_week then
      let shares := calculate_shares P P.dca_amount_per_week price
      if shares > 0 then execute_buy P s .dca shares price date else s
    else s
  let position1 := s1.dca_pos
  let position_ratio :=
    if position1.shares > 0 then
      (position1.shares * price) / (s1.dca_cash + position1.shares * price)
    else 0
  if position1.shares > 0 ∧ position_ratio > 0.7 ∧ profit_ratio > 0.2 ∧
      bar.macd_hist > 0 ∧ bar.volume_ratio > 1.5 ∧
      bar.macd_hist < bar.macd_hist_prev then
    if s1.sell_count < 3 then
      let sell_shares := position1.shares / 3
      if sell_shares > 0 then
        let s2 := execute_sell P s1 .dca sell_shares price date
        { s2 with sell_count := s2.sell_count + 1 }
      else s1
    else s1
  else s1

/-- `DcaTradingStrategy._execute_t_logic`.  Order as in the source: the
ATR stop-loss is checked first and returns immediately; then the
MACD-reversal close; then, only when flat and when both the tactical
cash and the DCA market value cover the per-trade amount, the three
entry triggers.  The three source branches each compute the same
`_calculate_shares(self.t_amount_per_trade, price)` and fall through to
the next trigger when the share count is not positive, so they are
written here as a single disjunction guarded by that share count. -/
def v1_execute_t_logic (P : Params) (s : StratState) (bar : Bar)
    (date : ℕ) : StratState :=
  let price := bar.close
  let position := s.t_pos
  let dca_position := s.dca_pos
  let dca_value := dca_position.shares * price
  if position.shares > 0 ∧ bar.atr > 0 ∧
      price < position.avg_price - 2 * bar.atr then
    execute_sell P s .t position.shares price date
  else if position.shares > 0 ∧ bar.ma5 > 0 ∧ bar.macd_hist > 0 ∧
      bar.macd_hist < bar.macd_hist_prev ∧ price < bar.ma5 then
    execute_sell P s .t position.shares price date
  else if position.shares = 0 ∧ s.t_cash ≥ P.t_amount_per_trade ∧
      dca_value ≥ P.t_amount_per_trade then
    let shares := calculate_shares P P.t_amount_per_trade price
    if (pyTruthy bar.index_data.drop_2_rebound_03 ∨
        pyTruthy bar.index_data.drop_1_rebound_02 ∨
        (bar.macd_hist < 0 ∧ bar.macd_hist_prev > bar.macd_hist_prev2 ∧
         bar.is_yang)) ∧ shares > 0 then
      execute_buy P s .t shares price date
    else s
  else s

/-- `DcaTradingStrategy._record_daily_nav`: one snapshot per call, no
bar price key. -/
def v1_record_daily_nav (P : Params) (s : StratState) (bar : Bar)
    (date : ℕ) : StratState :=
  let price := bar.close
  let dca_value := s.dca_pos.shares * price
  let t_value := s.t_pos.shares * price
  let total_value := s.dca_cash + s.t_cash + dca_value + t_value
  let nav : DailyNav :=
    { date := date, price := none
      dca_cash := s.dca_cash, t_cash := s.t_cash
      dca_value := dca_value, t_value := t_value
      total_value := total_value
      total_return := (total_value - P.total_capital) / P.total_capital }
  { s with daily_nav := s.daily_nav ++ [nav] }

/-- `BaseStrategy._record_daily_nav`: one snapshot per call (with the
bar price), one `daily_position_info` row, and the daily buy/sell
amounts reset to 0. -/
def base_record_daily_nav (P : Params) (s : StratState) (bar : Bar)
    (date : ℕ) : StratState :=
  let price := bar.close
  let dca_value := s.dca_pos.shares * price
  let t_value := s.t_pos.shares * price
  let total_value := s.dca_cash + s.t_cash + dca_value + t_value
  let initial_value := P.total_capital
  let total_return :=
    if initial_value > 0 then (total_value - initial_value) / initial_value
    else 0
  let nav : DailyNav :=
    { date := date, price := some price
      dca_cash := s.dca_cash, t_cash := s.t_cash
      dca_value := dca_value, t_value := t_value
      total_value := total_value, total_return := total_return }
  let info : PositionInfo :=
    { date := date
      position := (dca_value + t_value) / 10000
      buy_amount := s.daily_buy_amount / 10000
      sell_amount := s.daily_sell_amount / 10000 }
  { s with daily_nav := s.daily_nav ++ [nav]
           daily_position_info := s.daily_position_info ++ [info]
           daily_buy_amount := 0
           daily_sell_amount := 0 }

/-- `DcaTradingStrategy.on_bar`: DCA logic, then T logic, then NAV
recording, each exactly once per bar. -/
def v1_on_bar (P : Params) (s : StratState) (bar : Bar) (date : ℕ) :
    StratState :=
  v1_record_daily_nav P
    (v1_execute_t_logic P (v1_execute_dca_logic P s bar date) bar date)
    bar date

/-- The `DcaTradingStrategy.__init__` state: cash split by `dca_ratio`,
empty logs, zero positions. -/
def v1_init (P : Params) : StratState :=
  { dca_pos := initPosition, t_pos := initPosition
    dca_cash := P.total_capital * P.dca_ratio
    t_cash := P.total_capital * (1 - P.dca_ratio)
    trades := [], dca_trades := [], t_trades := []
    daily_nav := [], sell_count := 0
    daily_position_info := [], daily_buy_amount := 0, daily_sell_amount := 0 }

/-- The backtest driver's bar loop for v1: feed bars (paired with their
dates) in order. -/
def v1_run (P : Params) (s : StratState) (bars : List (ℕ × Bar)) :
    StratState :=
  bars.foldl (fun acc db => v1_on_bar P acc db.2 db.1) s

/-- `DcaTradingStrategyV2._calculate_dynamic_dca_amount`. -/
def v2_dynamic_dca_amount (P : Params) (bar : Bar) : ℚ :=
  if bar.atr = 0 ∨ bar.close = 0 then P.dca_amount_per_week
  else
    let atr_ratio := bar.atr / bar.close
    if atr_ratio > 0.03 then P.dca_amount_per_week * 0.7
    else if atr_ratio > 0.02 then P.dca_amount_per_week * 0.85
    else if atr_ratio < 0.01 then P.dca_amount_per_week * 1.15
    else P.dca_amount_per_week

/-- `DcaTradingStrategyV2._calculate_dynamic_t_amount`. -/
def v2_dynamic_t_amount (P : Params) (bar : Bar) : ℚ :=
  if bar.atr = 0 ∨ bar.close = 0 then P.t_amount_per_trade
  else
    let atr_ratio := bar.atr / bar.close
    let dynamic_amount :=
      if atr_ratio > 0.03 then P.t_amount_per_trade * 0.7
      else if atr_ratio > 0.02 then P.t_amount_per_trade * 0.85
      else if atr_ratio < 0.01 then P.t_amount_per_trade * 1.15
      else P.t_amount_per_trade
    if bar.is_uptrend then dynamic_amount * 1.1
    else if bar.is_downtrend then dynamic_amount * 0.9
    else dynamic_amount

/-- `DcaTradingStrategyV2._calculate_dynamic_stop_loss_multiplier`:
1.5–2.5, inverse to the ATR ratio, 2.0 when ATR or price is 0. -/
def v2_dynamic_stop_loss_multiplier (bar : Bar) : ℚ :=
  if bar.atr = 0 ∨ bar.close = 0 then 2
  else
    let atr_ratio := bar.atr / bar.close
    if atr_ratio > 0.03 then 2.5
    else if atr_ratio > 0.02 then 2.2
    else if atr_ratio < 0.01 then 1.5
    else 2

/-- `DcaTradingStrategyV2._calculate_dynamic_profit_target`. -/
def v2_dynamic_profit_target (P : Params) (bar : Bar) : ℚ :=
  if bar.atr = 0 ∨ bar.close = 0 then P.profit_target
  else
    let atr_ratio := bar.atr / bar.close
    if atr_ratio > 0.03 then P.profit_target * 1.3
    else if atr_ratio > 0.02 then P.profit_target * 1.15
    else if atr_ratio < 0.01 then P.profit_target * 0.85
    else P.profit_target

/-- `DcaTradingStrategyV2._execute_dca_logic`: as v1 but with the
dynamic weekly amount, a 0.65 position-ratio threshold, the dynamic
profit target, and a three-way momentum-exhaustion disjunction; the same
`_sell_count < 3` cap. -/
def v2_execute_dca_logic (P : Params) (s : StratState) (bar : Bar)
    (date : ℕ) : StratState :=
  let price := bar.close
  let position := s.dca_pos
  let profit_ratio :=
    if position.shares > 0 then
      (position.shares * price - position.cost) / position.cost
    else 0
  let is_first_day_of_week := date % 7 = 0
  let dynamic_dca_amount := v2_dynamic_dca_amount P bar
  let s1 :=
    if is_first_day_of_week ∧ s.dca_cash ≥ dynamic_dca_amount then
      let shares := calculate_shares P dynamic_dca_amount price
      if shares > 0 then execute_buy_base P s .dca shares price date else s
    else s
  let position1 := s1.dca_pos
  let position_ratio :=
    if position1.shares > 0 then
      (position1.shares * price) / (s1.dca_cash + position1.shares * price)
    else 0
  let dynamic_profit_target := v2_dynamic_profit_target P bar
  if position1.shares > 0 ∧ position_ratio > 0.65 ∧
      profit_ratio > dynamic_profit_target ∧
      ((bar.macd_hist > 0 ∧ bar.volume_ratio > 1.5 ∧
        bar.macd_hist < bar.macd_hist_prev) ∨
       (bar.is_downtrend ∧ profit_ratio > 0.15) ∨
       (bar.macd_hist < 0 ∧ profit_ratio > 0.25)) then
    if s1.sell_count < 3 then
      let sell_shares := position1.shares / 3
      if sell_shares > 0 then
        let s2 := execute_sell_v2 P s1 .dca sell_shares price date
        { s2 with sell_count := s2.sell_count + 1 }
      else s1
    else s1
  else s1

/-- `DcaTradingStrategyV2._execute_t_logic`.  The dynamic stop-loss
multiplier replaces the fixed 2; the momentum close additionally needs
positive unrealized profit or a volume surge; the entry block requires
only a flat position and `t_cash >= dynamic_t_amount` — the source
computes `dca_value` but, unlike v1, does not test it in any entry
condition. -/
def v2_execute_t_logic (P : Params) (s : StratState) (bar : Bar)
    (date : ℕ) : StratState :=
  let price := bar.close
  let position := s.t_pos
  let profit_ratio :=
    if position.shares > 0 then
      (position.shares * price - position.cost) / position.cost
    else 0
  let dynamic_stop_loss_multiplier := v2_dynamic_stop_loss_multiplier bar
  if position.shares > 0 ∧ bar.atr > 0 ∧
      price < position.avg_price - dynamic_stop_loss_multiplier * bar.atr then
    execute_sell_v2 P s .t position.shares price date
  else if position.shares > 0 ∧ bar.ma5 > 0 ∧ bar.macd_hist > 0 ∧
      bar.macd_hist < bar.macd_hist_prev ∧ price < bar.ma5 ∧
      (profit_ratio > 0.01 ∨ bar.is_volume_surge) then
    execute_sell_v2 P s .t position.shares price date
  else
    let dynamic_t_amount := v2_dynamic_t_amount P bar
    if position.shares = 0 ∧ s.t_cash ≥ dynamic_t_amount then
      if (pyTruthy bar.index_data.drop_2_rebound_03 ∧ bar.is_uptrend) ∨
          pyTruthy bar.index_data.drop_1_rebound_02 ∨
          (bar.macd_hist < 0 ∧ bar.macd_hist_prev > bar.macd_hist_prev2 ∧
           bar.is_yang) then
        let shares := calculate_shares P dynamic_t_amount price
        if shares > 0 then execute_buy_base P s .t shares price date else s
      else s
    else s

/-- `DcaTradingStrategyV2._record_daily_nav`: appends its own snapshot to
`daily_nav` and *then* calls `super()._record_daily_nav`, which appends
a second snapshot for the same bar. -/
def v2_record_daily_nav (P : Params) (s : StratState) (bar : Bar)
    (date : ℕ) : StratState :=
  let price := bar.close
  let dca_value := s.dca_pos.shares * price
  let t_value := s.t_pos.shares * price
  let total_value := s.dca_cash + s.t_cash + dca_value + t_value
  let nav : DailyNav :=
    { date := date, price := none
      dca_cash := s.dca_cash, t_cash := s.t_cash
      dca_value := dca_value, t_value := t_value
      total_value := total_value
      total_return := (total_value - P.total_capital) / P.total_capital }
  base_record_daily_nav P { s with daily_nav := s.daily_nav ++ [nav] } bar date

/-- `DcaTradingStrategyV2.on_bar`. -/
def v2_on_bar (P : Params) (s : StratState) (bar : Bar) (date : ℕ) :
    StratState :=
  v2_record_daily_nav P
    (v2_execute_t_logic P (v2_execute_dca_logic P s bar date) bar date)
    bar date

/-- The `DcaTradingStrategyV2.__init__` state (same shape as v1's). -/
def v2_init (P : Params) : StratState := v1_init P

/-- The backtest driver's bar loop for v2. -/
def v2_run (P : Params) (s : StratState) (bars : List (ℕ × Bar)) :
    StratState :=
  bars.foldl (fun acc db => v2_on_bar P acc db.2 db.1) s

/-- `DcaOnlyStrategy._execute_dca_logic`: weekly buy through
`BaseStrategy._execute_buy` with the truncation-based sizing helper, and
a full liquidation when the (pre-buy) profit ratio reaches the target
while the price is below `bar_data.get('ma10', 0)`. -/
def dcaOnly_execute_dca_logic (P : Params) (s : StratState) (bar : Bar)
    (date : ℕ) : StratState :=
  let price := bar.close
  let position := s.dca_pos
  let profit_ratio :=
    if position.shares > 0 then
      (position.shares * price - position.cost) / position.cost
    else 0
  let is_first_day_of_week := date % 7 = 0
  let s1 :=
    if is_first_day_of_week ∧ s.dca_cash ≥ P.dca_amount_per_week then
      let shares := dcaOnly_calculate_shares P P.dca_amount_per_week price
      if shares > 0 then execute_buy_base P s .dca shares price date else s
    else s
  if s1.dca_pos.shares > 0 ∧ profit_ratio ≥ P.profit_target ∧
      price < bar.ma10 then
    base_execute_sell P s1 .dca s1.dca_pos.shares price date
  else s1

/-- `DcaOnlyStrategy.on_bar`. -/
def dcaOnly_on_bar (P : Params) (s : StratState) (bar : Bar) (date : ℕ) :
    StratState :=
  base_record_daily_nav P (dcaOnly_execute_dca_logic P s bar date) bar date

/-- The `DcaOnlyStrategy.__init__` state: all capital in the DCA book. -/
def dcaOnly_init (P : Params) : StratState :=
  { dca_pos := initPosition, t_pos := initPosition
    dca_cash := P.total_capital, t_cash := 0
    trades := [], dca_trades := [], t_trades := []
    daily_nav := [], sell_count := 0
    daily_position_info := [], daily_buy_amount := 0, daily_sell_amount := 0 }

/-- The running maxima of a value series: `Series.expanding().max()` in
`get_results` (v1 and v2), element by element, seeded with the accumulator. -/
def expandingMaxAux (acc : ℚ) : List ℚ → List ℚ
  | [] => []
  | v :: rest => max acc v :: expandingMaxAux (max acc v) rest

/-- `Series.expanding().max()` on a value series. -/
def expandingMax : List ℚ → List ℚ
  | [] => []
  | v :: rest => v :: expandingMaxAux v rest

/-- The `max_drawdown` of `DcaTradingStrategy.get_results` (and of the v2
copy): `(nav_series - rolling_max) / rolling_max`, then `.min()`; 0 for
the empty series (the source guards `if not self.daily_nav`). -/
def v1_max_drawdown (values : List ℚ) : ℚ :=
  let drawdown := List.zipWith (fun v m => (v - m) / m) values (expandingMax values)
  match drawdown with
  | [] => 0
  | d :: rest => rest.foldl min d

/-- The loop body of `DcaOnlyStrategy._calculate_max_drawdown`: raise the
peak on a new high, otherwise accumulate the largest `(peak - v)/peak`
seen so far. -/
def dcaOnly_drawdown_loop : List ℚ → ℚ → ℚ → ℚ
  | [], _, m => m
  | v :: rest, peak, m =>
    if v > peak then dcaOnly_drawdown_loop rest v m
    else
      let drawdown := (peak - v) / peak
      dcaOnly_drawdown_loop rest peak (if drawdown > m then drawdown else m)

/-- `DcaOnlyStrategy._calculate_max_drawdown`: peak seeded with the first
total value, max-drawdown accumulator seeded with 0, loop over the whole
series (first element included). -/
def dcaOnly_max_drawdown (values : List ℚ) : ℚ :=
  match values with
  | [] => 0
  | v :: _ => dcaOnly_drawdown_loop values v 0

/-- Modelled from the spec (§4.5): "Max drawdown = minimum over time of
(value − running_peak)/running_peak", accumulated left to right with the
running peak. -/
def spec_drawdown_aux : List ℚ → ℚ → ℚ → ℚ
  | [], _, acc => acc
  | v :: rest, peak, acc =>
    let peak' := max peak v
    spec_drawdown_aux rest peak' (min acc ((v - peak') / peak'))

/-- Modelled from the spec (§4.5): the running-peak minimum drawdown of a
value series (0 on the empty series; the first value's drawdown is 0). -/
def spec_max_drawdown : List ℚ → ℚ
  | [] => 0
  | v :: rest => spec_drawdown_aux rest v 0

/-- One benchmark-index row's regime flags, as
`calculate_index_indicators` produces them for a date that the
benchmark series contains. -/
structure IndexRow where
  drop_2 : Bool
  drop_1 : Bool
  drop_2_rebound_03 : Bool
  drop_1_rebound_02 : Bool
deriving DecidableEq

/-- The regime-flag attach of `BacktestEngine.run_backtest` when a
nonempty benchmark frame is present: a pandas left join by date.  A
matching benchmark row contributes its booleans; a date miss leaves NaN
in all four columns (`none` here), and the subsequent
`row.get('drop_2', False)` reads that NaN back because the column does
exist after the join — the `False` default is never used on this path. -/
def joinIndexData (index_rows : List (ℕ × IndexRow)) (date : ℕ) : IndexData :=
  match index_rows.lookup date with
  | some row =>
      { drop_2 := some row.drop_2
        drop_1 := some row.drop_1
        drop_2_rebound_03 := some row.drop_2_rebound_03
        drop_1_rebound_02 := some row.drop_1_rebound_02 }
  | none =>
      { drop_2 := none, drop_1 := none
        drop_2_rebound_03 := none, drop_1_rebound_02 := none }

/-- The buy records in a trade log. -/
def buyTrades (l : List Trade) : List Trade :=
  l.filter (fun tr => tr.side = Side.buy)

/-- The sell records in a trade log. -/
def sellTrades (l : List Trade) : List Trade :=
  l.filter (fun tr => tr.side = Side.sell)

/-- How many bars of a dated bar list fall on a Monday. -/
def mondayCount (bars : List (ℕ × Bar)) : ℕ :=
  (bars.filter (fun db => db.1 % 7 = 0)).length

/-- The trade record each buy implementation appends for its book. -/
def buyTradeRecord (P : Params) (s : StratState) (book : Book)
    (shares price : ℚ) (date : ℕ) : Trade :=
  { date := date, side := .buy, book := book, shares := shares, price := price
    amount := shares * price + calculate_commission P.commission (shares * price)
    profit := none
    cash_after := cashOf book s -
      (shares * price + calculate_commission P.commission (shares * price)) }

/-- The trade record `_execute_sell` (v1/v2 text) appends for its book. -/
def sellTradeRecord (P : Params) (s : StratState) (book : Book)
    (shares price : ℚ) (date : ℕ) : Trade :=
  { date := date, side := .sell, book := book, shares := shares, price := price
    amount := shares * price - calculate_commission P.commission (shares * price)
    profit := some ((shares * price -
      calculate_commission P.commission (shares * price)) -
      (posOf book s).cost * (shares / (posOf book s).shares))
    cash_after := cashOf book s +
      (shares * price - calculate_commission P.commission (shares * price)) }

/-- A bar with all indicator fields at rest (zeros, `false` flags, all
regime cells present and `false`); concrete scenarios below override the
fields they exercise. -/
def neutralBar : Bar :=
  { close := 0, macd_hist := 0, macd_hist_prev := 0, macd_hist_prev2 := 0
    volume_ratio := 0, is_yang := false, is_volume_surge := false
    is_uptrend := false, is_downtrend := false, atr := 0, ma5 := 0, ma10 := 0
    index_data := { drop_2 := some false, drop_1 := some false
                    drop_2_rebound_03 := some false
                    drop_1_rebound_02 := some false } }

/-- Stop-loss scenario state: a tactical position opened at average price
100 (100 shares, cost 10000), otherwise the default initial state. -/
def c8_state : StratState :=
  { v1_init defaultParams with
      t_pos := { shares := 100, cost := 10000, avg_price := 100
                 entry_date := some 0 } }

/-- Stop-loss scenario bar: ATR 2 and close 95.9, strictly below
100 - 2.0 × 2 = 96. -/
def c8_bar : Bar :=
  { neutralBar with close := 95.9, atr := 2 }

/-- Stop-loss scenario bar for v2: at close 95.5 the ATR ratio 2/95.5 is
a little over 2%, so the dynamic multiplier is 2.2 and the stop sits at
100 - 2.2 × 2 = 95.6 > 95.5. -/
def c8_bar_v2 : Bar :=
  { neutralBar with close := 95.5, atr := 2 }

/-- Overdraw scenario parameters for `DcaOnlyStrategy`: total capital
equal to one weekly contribution of 500, the documented default
commission and slippage rates. -/
def c1_params : Params :=
  { total_capital := 500, dca_ratio := 0, dca_amount_per_week := 500
    t_amount_per_trade := 0, max_loss_ratio := 0, profit_target := 0.2
    commission := 0.0003, slippage := 0.001 }

/-- Overdraw scenario bar: a Monday bar at close 1. -/
def c1_bar : Bar :=
  { neutralBar with close := 1 }

/-- A benchmark regime series holding only day 0, so that day 3 is a
left-join miss. -/
def c4_index_rows : List (ℕ × IndexRow) :=
  [(0, { drop_2 := false, drop_1 := false
         drop_2_rebound_03 := false, drop_1_rebound_02 := false })]

/-- The day-3 symbol bar after the engine's join: every regime cell is
the NaN of a join miss. -/
def c4_bar : Bar :=
  { neutralBar with close := 10, index_data := joinIndexData c4_index_rows 3 }

/-- A state holding 1000 DCA shares (market value 10000 at close 10), so
the v1 tactical liquidity gate is satisfied and only the regime flags
decide the entry. -/
def c4_state : StratState :=
  { v1_init defaultParams with
      dca_pos := { shares := 1000, cost := 10000, avg_price := 10
                   entry_date := none } }

/-- A bar whose only active trigger is the `drop_1_rebound_02` regime
flag (an actual benchmark `True`, not a join miss). -/
def c2_bar : Bar :=
  { neutralBar with
      close := 10
      index_data := { drop_2 := some false, drop_1 := some false
                      drop_2_rebound_03 := some false
                      drop_1_rebound_02 := some true } }

/-- Ten consecutive Mondays (day ordinals divisible by 7). -/
def c5_dates : List ℕ := [0, 7, 14, 21, 28, 35, 42, 49, 56, 63]

/-- A 10-week, one-Monday-bar-per-week series priced far above the
contribution amount: the lot-of-100 sizing yields 0 shares. -/
def c5_expensive_bars : List (ℕ × Bar) :=
  c5_dates.map (fun d => (d, { neutralBar with close := 1000000 }))

/-- A 10-week, one-Monday-bar-per-week series at close 1: the sizing
yields 900 shares each week. -/
def c5_cheap_bars : List (ℕ × Bar) :=
  c5_dates.map (fun d => (d, { neutralBar with close := 1 }))

/-- C9: for every trade amount A and commission rate r, the commission
charged is `max(A·r, 5)`; this is the commission on both buys and sells
(every buy debit and every sell credit, in each of the buy/sell
implementations, uses exactly that charge), and the fixed minimum of 5
applies exactly when the percentage commission A·r is smaller. -/
theorem C9_commission_floor :
    (∀ rate amount : ℚ, calculate_commission rate amount = max (amount * rate) 5) ∧
    (∀ (P : Params) (s : StratState) (book : Book) (shares price : ℚ) (date : ℕ),
      cashOf book (execute_buy P s book shares price date) =
        cashOf book s - (shares * price + max (shares * price * P.commission) 5) ∧
      cashOf book (execute_buy_base P s book shares price date) =
        cashOf book s - (shares * price + max (shares * price * P.commission) 5) ∧
      cashOf book (execute_sell P s book shares price date) =
        cashOf book s + (shares * price - max (shares * price * P.commission) 5) ∧
      cashOf book (execute_sell_v2 P s book shares price date) =
        cashOf book s + (shares * price - max (shares * price * P.commission) 5) ∧
      cashOf book (base_execute_sell P s book shares price date) =
        cashOf book s + (shares * price - max (shares * price * P.commission) 5)) ∧
    (∀ rate amount : ℚ, amount * rate < 5 → calculate_commission rate amount = 5) ∧
    (∀ rate amount : ℚ, 5 ≤ amount * rate → calculate_commission rate amount = amount * rate) := by
  refine ⟨fun rate amount => rfl, ?_, ?_, ?_⟩
  · intro P s book shares price date
    cases book <;>
      exact ⟨rfl, rfl, rfl, rfl, rfl⟩
  · intro rate amount h
    exact max_eq_right h.le
  · intro rate amount h
    exact max_eq_left h

/-- C9 witness: at amount 100 the percentage commission 0.03 is below the
floor and 5 is charged; at amount 100000 the percentage commission 30
exceeds the floor and is charged as is. -/
theorem C9_commission_floor_witness :
    calculate_commission 0.0003 100 = 5 ∧
    calculate_commission 0.0003 100000 = 30 := by
  constructor
  · exact C9_commission_floor.2.2.1 0.0003 100 (by decide)
  · rw [C9_commission_floor.2.2.2 0.0003 100000 (by decide)]
    decide

/-- C10: an executed buy debits exactly `shares * close + commission` and
an executed sell credits exactly `shares * close - commission`; the trade
is recorded at the bar close itself, and the buy/sell operations are
invariant under a change of the slippage rate — the slippage enters only
the sizing helper `calculate_shares`, which divides by
`price * (1 + slippage)` (shown to be slippage-sensitive at a concrete
input). -/
theorem C10_slippage_only_in_sizing :
    (∀ (P : Params) (x : ℚ) (s : StratState) (book : Book) (shares price : ℚ) (date : ℕ),
      execute_buy { P with slippage := x } s book shares price date =
        execute_buy P s book shares price date ∧
      execute_sell { P with slippage := x } s book shares price date =
        execute_sell P s book shares price date ∧
      cashOf book (execute_buy P s book shares price date) =
        cashOf book s -
          (shares * price + calculate_commission P.commission (shares * price)) ∧
      cashOf book (execute_sell P s book shares price date) =
        cashOf book s +
          (shares * price - calculate_commission P.commission (shares * price)) ∧
      (execute_buy P s book shares price date).trades =
        s.trades ++ [buyTradeRecord P s book shares price date] ∧
      (execute_sell P s book shares price date).trades =
        s.trades ++ [sellTradeRecord P s book shares price date]) ∧
    calculate_shares defaultParams 5000 10 ≠
      calculate_shares { defaultParams with slippage := 10 } 5000 10 := by
  constructor
  · intro P x s book shares price date
    cases book <;>
      exact ⟨rfl, rfl, rfl, rfl, rfl, rfl⟩
  · decide

/-- C8: whenever a tactical position is held with positive ATR and the
close falls strictly below `avg_price` minus the stop-loss multiplier
times ATR (2.0 fixed in v1, the dynamic multiplier in v2), the bar's
tactical logic is exactly a full-position sell — no other exit or entry
rule comes into play — and the tactical book is flat afterwards. -/
theorem C8_stop_loss_first (P : Params) (s : StratState) (bar : Bar) (date : ℕ) :
    (s.t_pos.shares > 0 → bar.atr > 0 →
      bar.close < s.t_pos.avg_price - 2 * bar.atr →
      v1_execute_t_logic P s bar date =
        execute_sell P s .t s.t_pos.shares bar.close date ∧
      (v1_execute_t_logic P s bar date).t_pos.shares = 0 ∧
      (v1_execute_t_logic P s bar date).t_trades =
        s.t_trades ++ [sellTradeRecord P s .t s.t_pos.shares bar.close date]) ∧
    (s.t_pos.shares > 0 → bar.atr > 0 →
      bar.close < s.t_pos.avg_price -
        v2_dynamic_stop_loss_multiplier bar * bar.atr →
      v2_execute_t_logic P s bar date =
        execute_sell_v2 P s .t s.t_pos.shares bar.close date ∧
      (v2_execute_t_logic P s bar date).t_pos.shares = 0) := by
  constructor
  · intro h1 h2 h3
    have hsell : v1_execute_t_logic P s bar date =
        execute_sell P s .t s.t_pos.shares bar.close date := by
      unfold v1_execute_t_logic
      rw [if_pos ⟨h1, h2, h3⟩]
    refine ⟨hsell, ?_, ?_⟩
    · rw [hsell]
      show s.t_pos.shares - s.t_pos.shares = 0
      exact sub_self _
    · rw [hsell]
      rfl
  · intro h1 h2 h3
    have hsell : v2_execute_t_logic P s bar date =
        execute_sell_v2 P s .t s.t_pos.shares bar.close date := by
      unfold v2_execute_t_logic
      rw [if_pos ⟨h1, h2, h3⟩]
    refine ⟨hsell, ?_⟩
    rw [hsell]
    show s.t_pos.shares - s.t_pos.shares = 0
    exact sub_self _

/-- C8 witness: the spec's stop-loss scenario — position at average
price 100, ATR 2, multiplier 2.0, close 95.9 < 96 — triggers the v1 full
close, and the v2 close for the dynamic multiplier (2.2 here, since
ATR/close is a little over 2%). -/
theorem C8_stop_loss_first_witness :
    v1_execute_t_logic defaultParams c8_state c8_bar 1 =
      execute_sell defaultParams c8_state .t 100 95.9 1 ∧
    (v1_execute_t_logic defaultParams c8_state c8_bar 1).t_pos.shares = 0 ∧
    v2_execute_t_logic defaultParams c8_state c8_bar_v2 1 =
      execute_sell_v2 defaultParams c8_state .t 100 95.5 1 ∧
    (v2_execute_t_logic defaultParams c8_state c8_bar_v2 1).t_pos.shares = 0 := by
  have h1 := (C8_stop_loss_first defaultParams c8_state c8_bar 1).1
    (by decide) (by decide) (by decide)
  have h2 := (C8_stop_loss_first defaultParams c8_state c8_bar_v2 1).2
    (by decide) (by decide) (by decide)
  exact ⟨h1.1, h1.2.1, h2.1, h2.2⟩

/-- Appending a sell record leaves the buy records of a log unchanged. -/
theorem buyTrades_append_sell (l : List Trade) (tr : Trade)
    (h : tr.side = Side.sell) : buyTrades (l ++ [tr]) = buyTrades l := by
  simp [buyTrades, List.filter_append, h]

/-- Appending a buy record leaves the sell records of a log unchanged. -/
theorem sellTrades_append_buy (l : List Trade) (tr : Trade)
    (h : tr.side = Side.buy) : sellTrades (l ++ [tr]) = sellTrades l := by
  simp [sellTrades, List.filter_append, h]

/-- Appending a sell record appends it to the sell records. -/
theorem sellTrades_append_sell (l : List Trade) (tr : Trade)
    (h : tr.side = Side.sell) :
    sellTrades (l ++ [tr]) = sellTrades l ++ [tr] := by
  simp [sellTrades, List.filter_append, h]

/-- Appending a buy record appends it to the buy records. -/
theorem buyTrades_append_buy (l : List Trade) (tr : Trade)
    (h : tr.side = Side.buy) :
    buyTrades (l ++ [tr]) = buyTrades l ++ [tr] := by
  simp [buyTrades, List.filter_append, h]

/-- The record a `sellTradeRecord` builds is a sell. -/
theorem sellTradeRecord_side (P : Params) (s : StratState) (book : Book)
    (sh p : ℚ) (d : ℕ) : (sellTradeRecord P s book sh p d).side = Side.sell := rfl

/-- The record a `buyTradeRecord` builds is a buy. -/
theorem buyTradeRecord_side (P : Params) (s : StratState) (book : Book)
    (sh p : ℚ) (d : ℕ) : (buyTradeRecord P s book sh p d).side = Side.buy := rfl

/-- C1: the buy path has no insufficient-funds condition at all, and a
weekly `DcaOnlyStrategy` buy can overdraw its sub-account: with capital
500, contribution 500, close 1 and the default rates, the Monday
affordability pre-check `dca_cash >= amount` passes with equality, the
truncation sizing helper (which *adds* the commission before dividing)
returns 504 shares, the buy executes and leaves the DCA cash at -9 —
strictly negative — while still appending the buy trade. -/
theorem C1_buy_overdraws_cash :
    (dcaOnly_init c1_params).dca_cash = c1_params.dca_amount_per_week ∧
    dcaOnly_calculate_shares c1_params c1_params.dca_amount_per_week 1 = 504 ∧
    (dcaOnly_on_bar c1_params (dcaOnly_init c1_params) c1_bar 0).dca_cash = -9 ∧
    (dcaOnly_on_bar c1_params (dcaOnly_init c1_params) c1_bar 0).dca_cash < 0 ∧
    (buyTrades
      (dcaOnly_on_bar c1_params (dcaOnly_init c1_params) c1_bar 0).dca_trades).length
      = 1 := by
  decide

/-- C4: a symbol bar whose date has no benchmark row does not get `false`
regime flags: the left join leaves NaN cells, `row.get` returns them
(the column exists), NaN is truthy, and a regime-gated tactical entry
fires on exactly such a bar — here day 3 against a benchmark series that
only has day 0. -/
theorem C4_join_miss_entry_fires :
    List.lookup 3 c4_index_rows = none ∧
    (joinIndexData c4_index_rows 3).drop_2_rebound_03 = none ∧
    pyTruthy (joinIndexData c4_index_rows 3).drop_2_rebound_03 = true ∧
    (buyTrades (v1_execute_t_logic defaultParams c4_state c4_bar 3).t_trades).length
      = (buyTrades c4_state.t_trades).length + 1 := by
  decide

/-- C2 counterexample: in v2 a tactical entry buy is issued on a state
whose accumulation market value is 0, far below the intended (dynamic)
tactical amount of 5000 — the v2 entry block never tests `dca_value`. -/
theorem C2_v2_entry_without_dca_cover :
    (v2_init defaultParams).dca_pos.shares * c2_bar.close <
      v2_dynamic_t_amount defaultParams c2_bar ∧
    (v2_init defaultParams).dca_pos.shares * c2_bar.close <
      defaultParams.t_amount_per_trade ∧
    (buyTrades
      (v2_execute_t_logic defaultParams (v2_init defaultParams) c2_bar 1).t_trades).length
      = (buyTrades (v2_init defaultParams).t_trades).length + 1 := by
  decide

/-- A tactical sell (v1/v2 text) leaves the buy records of the tactical
log unchanged. -/
theorem buyTrades_execute_sell_t (P : Params) (s : StratState) (sh p : ℚ)
    (d : ℕ) :
    buyTrades (execute_sell P s .t sh p d).t_trades = buyTrades s.t_trades := by
  rw [show (execute_sell P s .t sh p d).t_trades =
      s.t_trades ++ [sellTradeRecord P s .t sh p d] from rfl,
    buyTrades_append_sell _ _ (sellTradeRecord_side ..)]

/-- A v2 tactical sell leaves the buy records of the tactical log
unchanged. -/
theorem buyTrades_execute_sell_v2_t (P : Params) (s : StratState) (sh p : ℚ)
    (d : ℕ) :
    buyTrades (execute_sell_v2 P s .t sh p d).t_trades = buyTrades s.t_trades := by
  rw [show (execute_sell_v2 P s .t sh p d).t_trades =
      s.t_trades ++ [sellTradeRecord P s .t sh p d] from rfl,
    buyTrades_append_sell _ _ (sellTradeRecord_side ..)]

/-- C2 (amended): in v1 every tactical entry buy is gated by the
accumulation market value — whenever a bar's tactical logic appends a buy,
the pre-state was flat with `t_cash` and `dca_shares * close` both at
least the per-trade amount; in v2 an appended entry buy guarantees only a
flat position and `t_cash` at least the dynamic amount. -/
theorem C2_t_entry_gate (P : Params) (s : StratState) (bar : Bar) (date : ℕ) :
    ((buyTrades (v1_execute_t_logic P s bar date).t_trades).length ≠
        (buyTrades s.t_trades).length →
      s.t_pos.shares = 0 ∧ s.t_cash ≥ P.t_amount_per_trade ∧
        s.dca_pos.shares * bar.close ≥ P.t_amount_per_trade) ∧
    ((buyTrades (v2_execute_t_logic P s bar date).t_trades).length ≠
        (buyTrades s.t_trades).length →
      s.t_pos.shares = 0 ∧ s.t_cash ≥ v2_dynamic_t_amount P bar) := by
  constructor
  · intro hne
    simp only [v1_execute_t_logic] at hne
    split_ifs at hne
    all_goals
      first
      | exact absurd rfl hne
      | (rw [buyTrades_execute_sell_t] at hne; exact absurd rfl hne)
      | assumption
  · intro hne
    simp only [v2_execute_t_logic] at hne
    split_ifs at hne
    all_goals
      first
      | exact absurd rfl hne
      | (rw [buyTrades_execute_sell_v2_t] at hne; exact absurd rfl hne)
      | assumption

/-- C2 witness: on a v1 state holding 1000 DCA shares at close 10, the
`drop_2_rebound_03` regime entry issues a buy, and the gate conclusion of
the amended claim holds: flat pre-state, `t_cash` 150000 ≥ 5000 and DCA
market value 10000 ≥ 5000. -/
theorem C2_t_entry_gate_witness :
    c4_state.t_pos.shares = 0 ∧
    c4_state.t_cash ≥ defaultParams.t_amount_per_trade ∧
    c4_state.dca_pos.shares * c4_bar.close ≥ defaultParams.t_amount_per_trade := by
  exact (C2_t_entry_gate defaultParams c4_state c4_bar 3).1 (by decide)

/-- The Python `if a > m then a else m` accumulator step is a `max`. -/
theorem ite_gt_eq_max (a m : ℚ) : (if a > m then a else m) = max m a := by
  rcases le_or_lt a m with h | h
  · rw [if_neg (not_lt.mpr h), max_eq_left h]
  · rw [if_pos h, max_eq_right h.le]

/-- The folded v1 drawdown series (pandas `expanding().max()` then
`(v - m)/m` then `.min()`) computes the spec's running-peak minimum. -/
theorem foldl_min_zipWith_eq_spec (rest : List ℚ) :
    ∀ (peak acc : ℚ),
      (List.zipWith (fun v m => (v - m) / m) rest (expandingMaxAux peak rest)).foldl
        min acc = spec_drawdown_aux rest peak acc := by
  induction rest with
  | nil => intro peak acc; rfl
  | cons v r ih =>
      intro peak acc
      simp only [expandingMaxAux, List.zipWith, List.foldl, spec_drawdown_aux]
      exact ih (max peak v) (min acc ((v - max peak v) / max peak v))

/-- The `DcaOnlyStrategy` loop is the negation of the spec accumulator,
as long as its max-drawdown accumulator is nonnegative (it starts at 0
and only ever grows). -/
theorem dcaOnly_loop_eq_neg_spec (l : List ℚ) :
    ∀ (peak m : ℚ), 0 ≤ m →
      dcaOnly_drawdown_loop l peak m = -spec_drawdown_aux l peak (-m) := by
  induction l with
  | nil => intro peak m _; simp [dcaOnly_drawdown_loop, spec_drawdown_aux]
  | cons v r ih =>
      intro peak m hm
      by_cases hv : v > peak
      · rw [show dcaOnly_drawdown_loop (v :: r) peak m =
            dcaOnly_drawdown_loop r v m from if_pos hv]
        have hmax : max peak v = v := max_eq_right hv.le
        simp only [spec_drawdown_aux, hmax, sub_self, zero_div]
        rw [min_eq_left (by linarith : -m ≤ (0 : ℚ))]
        exact ih v m hm
      · rw [show dcaOnly_drawdown_loop (v :: r) peak m =
            dcaOnly_drawdown_loop r peak
              (if (peak - v) / peak > m then (peak - v) / peak else m) from
            if_neg hv]
        have hmax : max peak v = peak := max_eq_left (not_lt.mp hv)
        simp only [spec_drawdown_aux, hmax]
        rw [ite_gt_eq_max]
        have hneg : -(max m ((peak - v) / peak)) =
            min (-m) ((v - peak) / peak) := by
          rw [show (v - peak) / peak = -((peak - v) / peak) by ring]
          rw [← neg_neg (min (-m) (-((peak - v) / peak)))]
          rw [min_neg_neg]
          rw [neg_neg]
        rw [ih peak (max m ((peak - v) / peak))
          (le_trans hm (le_max_left m ((peak - v) / peak))), hneg]

/-- The spec accumulator never exceeds its seed. -/
theorem spec_drawdown_aux_le (l : List ℚ) :
    ∀ (peak acc : ℚ), spec_drawdown_aux l peak acc ≤ acc := by
  induction l with
  | nil => intro peak acc; exact le_refl acc
  | cons v r ih =>
      intro peak acc
      exact le_trans (ih (max peak v) (min acc ((v - max peak v) / max peak v)))
        (min_le_left _ _)

/-- C6 counterexample: on total values 100, 50 the spec's running-peak
minimum is -1/2, and the v1/v2 reporter returns it, but
`DcaOnlyStrategy._calculate_max_drawdown` returns +1/2 — not the minimum
of (value − running_peak)/running_peak and not non-positive. -/
theorem C6_dcaOnly_reports_positive_drawdown :
    spec_max_drawdown [100, 50] = -(1/2) ∧
    v1_max_drawdown [100, 50] = -(1/2) ∧
    dcaOnly_max_drawdown [100, 50] = 1/2 ∧
    dcaOnly_max_drawdown [100, 50] ≠ spec_max_drawdown [100, 50] := by
  decide

/-- C6 (amended): the v1/v2 `get_results` max drawdown is exactly the
spec's minimum over time of (value − running_peak)/running_peak and is
non-positive on every nonempty series; the `DcaOnlyStrategy` reporter
returns the *negation* of that quantity (the non-negative magnitude)
instead. -/
theorem C6_max_drawdown_reporters :
    (∀ values : List ℚ, v1_max_drawdown values = spec_max_drawdown values) ∧
    (∀ values : List ℚ, dcaOnly_max_drawdown values = -v1_max_drawdown values) ∧
    (∀ (v : ℚ) (rest : List ℚ), v1_max_drawdown (v :: rest) ≤ 0) := by
  have hv1 : ∀ values : List ℚ, v1_max_drawdown values = spec_max_drawdown values := by
    intro values
    cases values with
    | nil => rfl
    | cons v rest =>
        show (List.zipWith (fun v m => (v - m) / m) rest
            (expandingMaxAux v rest)).foldl min ((v - v) / v) =
          spec_drawdown_aux rest v 0
        rw [sub_self, zero_div]
        exact foldl_min_zipWith_eq_spec rest v 0
  refine ⟨hv1, ?_, ?_⟩
  · intro values
    cases values with
    | nil => simp [dcaOnly_max_drawdown, v1_max_drawdown]
    | cons v rest =>
        rw [hv1]
        show dcaOnly_drawdown_loop (v :: rest) v 0 = -spec_max_drawdown (v :: rest)
        rw [show dcaOnly_drawdown_loop (v :: rest) v 0 =
            dcaOnly_drawdown_loop rest v
              (if (v - v) / v > 0 then (v - v) / v else 0) from
            if_neg (lt_irrefl v)]
        rw [sub_self, zero_div, if_neg (lt_irrefl 0)]
        rw [dcaOnly_loop_eq_neg_spec rest v 0 (le_refl 0)]
        rw [neg_zero]
        rfl
  · intro v rest
    rw [hv1]
    show spec_drawdown_aux rest v 0 ≤ 0
    exact spec_drawdown_aux_le rest v 0

/-- Buys do not touch the daily NAV series. -/
theorem execute_buy_daily_nav (P : Params) (s : StratState) (book : Book)
    (sh p : ℚ) (d : ℕ) : (execute_buy P s book sh p d).daily_nav = s.daily_nav := by
  cases book <;> rfl

/-- The base-class buy does not touch the daily NAV series. -/
theorem execute_buy_base_daily_nav (P : Params) (s : StratState) (book : Book)
    (sh p : ℚ) (d : ℕ) :
    (execute_buy_base P s book sh p d).daily_nav = s.daily_nav := by
  cases book <;> rfl

/-- Sells do not touch the daily NAV series. -/
theorem execute_sell_daily_nav (P : Params) (s : StratState) (book : Book)
    (sh p : ℚ) (d : ℕ) : (execute_sell P s book sh p d).daily_nav = s.daily_nav := by
  cases book <;> rfl

/-- The v2 sell does not touch the daily NAV series. -/
theorem execute_sell_v2_daily_nav (P : Params) (s : StratState) (book : Book)
    (sh p : ℚ) (d : ℕ) :
    (execute_sell_v2 P s book sh p d).daily_nav = s.daily_nav := by
  cases book <;> rfl

/-- The base-class sell does not touch the daily NAV series. -/
theorem base_execute_sell_daily_nav (P : Params) (s : StratState) (book : Book)
    (sh p : ℚ) (d : ℕ) :
    (base_execute_sell P s book sh p d).daily_nav = s.daily_nav := by
  cases book <;> rfl

/-- The v1 DCA rule set does not touch the daily NAV series. -/
theorem v1_execute_dca_logic_daily_nav (P : Params) (s : StratState) (bar : Bar)
    (d : ℕ) : (v1_execute_dca_logic P s bar d).daily_nav = s.daily_nav := by
  simp only [v1_execute_dca_logic]
  split_ifs <;>
    simp [execute_buy_daily_nav, execute_sell_daily_nav]

/-- The v1 tactical rule set does not touch the daily NAV series. -/
theorem v1_execute_t_logic_daily_nav (P : Params) (s : StratState) (bar : Bar)
    (d : ℕ) : (v1_execute_t_logic P s bar d).daily_nav = s.daily_nav := by
  simp only [v1_execute_t_logic]
  split_ifs <;>
    simp [execute_buy_daily_nav, execute_sell_daily_nav]

/-- The v2 DCA rule set does not touch the daily NAV series. -/
theorem v2_execute_dca_logic_daily_nav (P : Params) (s : StratState) (bar : Bar)
    (d : ℕ) : (v2_execute_dca_logic P s bar d).daily_nav = s.daily_nav := by
  simp only [v2_execute_dca_logic]
  split_ifs <;>
    simp [execute_buy_base_daily_nav, execute_sell_v2_daily_nav]

/-- The v2 tactical rule set does not touch the daily NAV series. -/
theorem v2_execute_t_logic_daily_nav (P : Params) (s : StratState) (bar : Bar)
    (d : ℕ) : (v2_execute_t_logic P s bar d).daily_nav = s.daily_nav := by
  simp only [v2_execute_t_logic]
  split_ifs <;>
    simp [execute_buy_base_daily_nav, execute_sell_v2_daily_nav]

/-- The DCA-only rule set does not touch the daily NAV series. -/
theorem dcaOnly_execute_dca_logic_daily_nav (P : Params) (s : StratState)
    (bar : Bar) (d : ℕ) :
    (dcaOnly_execute_dca_logic P s bar d).daily_nav = s.daily_nav := by
  simp only [dcaOnly_execute_dca_logic]
  split_ifs <;>
    simp [execute_buy_base_daily_nav, base_execute_sell_daily_nav]

/-- Per bar, v1 appends exactly one NAV snapshot, dated with the bar. -/
theorem v1_on_bar_nav_dates (P : Params) (s : StratState) (bar : Bar) (d : ℕ) :
    (v1_on_bar P s bar d).daily_nav.map DailyNav.date =
      s.daily_nav.map DailyNav.date ++ [d] := by
  show ((v1_execute_t_logic P (v1_execute_dca_logic P s bar d) bar d).daily_nav
      ++ [_]).map DailyNav.date = s.daily_nav.map DailyNav.date ++ [d]
  rw [List.map_append, v1_execute_t_logic_daily_nav,
    v1_execute_dca_logic_daily_nav]
  rfl

/-- C3: per bar, the v1 strategy and the DCA-only strategy append exactly
one DailyNAV snapshot, dated with the bar's date, so over a run the v1
NAV dates are exactly the input bar dates (strictly ascending whenever
the driver's bars are); the v2 strategy appends *two* snapshots per bar
— its `_record_daily_nav` appends one and then calls the base-class
method, which appends another — both carrying the same date. -/
theorem C3_one_nav_per_bar (P : Params) (s : StratState) (bar : Bar) (d : ℕ) :
    (v1_on_bar P s bar d).daily_nav.map DailyNav.date =
      s.daily_nav.map DailyNav.date ++ [d] ∧
    (dcaOnly_on_bar P s bar d).daily_nav.map DailyNav.date =
      s.daily_nav.map DailyNav.date ++ [d] ∧
    (v2_on_bar P s bar d).daily_nav.map DailyNav.date =
      s.daily_nav.map DailyNav.date ++ [d, d] ∧
    (∀ bars : List (ℕ × Bar),
      (v1_run P s bars).daily_nav.map DailyNav.date =
        s.daily_nav.map DailyNav.date ++ bars.map Prod.fst) := by
  refine ⟨v1_on_bar_nav_dates P s bar d, ?_, ?_, ?_⟩
  · show ((dcaOnly_execute_dca_logic P s bar d).daily_nav ++ [_]).map DailyNav.date
        = s.daily_nav.map DailyNav.date ++ [d]
    rw [List.map_append, dcaOnly_execute_dca_logic_daily_nav]
    rfl
  · show (((v2_execute_t_logic P (v2_execute_dca_logic P s bar d) bar d).daily_nav
        ++ [_]) ++ [_]).map DailyNav.date = s.daily_nav.map DailyNav.date ++ [d, d]
    rw [List.map_append, List.map_append, v2_execute_t_logic_daily_nav,
      v2_execute_dca_logic_daily_nav, List.append_assoc]
    rfl
  · intro bars
    induction bars generalizing s with
    | nil => simp [v1_run]
    | cons db rest ih =>
        show (v1_run P (v1_on_bar P s db.2 db.1) rest).daily_nav.map DailyNav.date
            = s.daily_nav.map DailyNav.date ++ (db.1 :: rest.map Prod.fst)
        rw [ih (v1_on_bar P s db.2 db.1), v1_on_bar_nav_dates,
          List.append_assoc, List.singleton_append]

/-- A DCA buy appends its record to the DCA log. -/
theorem execute_buy_dca_trades (P : Params) (s : StratState) (sh p : ℚ) (d : ℕ) :
    (execute_buy P s .dca sh p d).dca_trades =
      s.dca_trades ++ [buyTradeRecord P s .dca sh p d] := rfl

/-- A DCA buy does not touch the sell counter. -/
theorem execute_buy_sell_count (P : Params) (s : StratState) (book : Book)
    (sh p : ℚ) (d : ℕ) : (execute_buy P s book sh p d).sell_count = s.sell_count := by
  cases book <;> rfl

/-- The base-class DCA buy appends its record to the DCA log. -/
theorem execute_buy_base_dca_trades (P : Params) (s : StratState) (sh p : ℚ)
    (d : ℕ) :
    (execute_buy_base P s .dca sh p d).dca_trades =
      s.dca_trades ++ [buyTradeRecord P s .dca sh p d] := rfl

/-- The base-class buy does not touch the sell counter. -/
theorem execute_buy_base_sell_count (P : Params) (s : StratState) (book : Book)
    (sh p : ℚ) (d : ℕ) :
    (execute_buy_base P s book sh p d).sell_count = s.sell_count := by
  cases book <;> rfl

/-- A DCA sell appends its record to the DCA log. -/
theorem execute_sell_dca_trades (P : Params) (s : StratState) (sh p : ℚ) (d : ℕ) :
    (execute_sell P s .dca sh p d).dca_trades =
      s.dca_trades ++ [sellTradeRecord P s .dca sh p d] := rfl

/-- A sell does not touch the sell counter. -/
theorem execute_sell_sell_count (P : Params) (s : StratState) (book : Book)
    (sh p : ℚ) (d : ℕ) :
    (execute_sell P s book sh p d).sell_count = s.sell_count := by
  cases book <;> rfl

/-- A v2 DCA sell appends its record to the DCA log. -/
theorem execute_sell_v2_dca_trades (P : Params) (s : StratState) (sh p : ℚ)
    (d : ℕ) :
    (execute_sell_v2 P s .dca sh p d).dca_trades =
      s.dca_trades ++ [sellTradeRecord P s .dca sh p d] := rfl

/-- A v2 sell does not touch the sell counter. -/
theorem execute_sell_v2_sell_count (P : Params) (s : StratState) (book : Book)
    (sh p : ℚ) (d : ℕ) :
    (execute_sell_v2 P s book sh p d).sell_count = s.sell_count := by
  cases book <;> rfl

/-- The v1 tactical rule set does not touch the DCA trade log. -/
theorem v1_execute_t_logic_dca_trades (P : Params) (s : StratState) (bar : Bar)
    (d : ℕ) : (v1_execute_t_logic P s bar d).dca_trades = s.dca_trades := by
  simp only [v1_execute_t_logic]
  split_ifs <;> rfl

/-- The v1 tactical rule set does not touch the sell counter. -/
theorem v1_execute_t_logic_sell_count (P : Params) (s : StratState) (bar : Bar)
    (d : ℕ) : (v1_execute_t_logic P s bar d).sell_count = s.sell_count := by
  simp only [v1_execute_t_logic]
  split_ifs <;> rfl

/-- The v2 tactical rule set does not touch the DCA trade log. -/
theorem v2_execute_t_logic_dca_trades (P : Params) (s : StratState) (bar : Bar)
    (d : ℕ) : (v2_execute_t_logic P s bar d).dca_trades = s.dca_trades := by
  simp only [v2_execute_t_logic]
  split_ifs <;> rfl

/-- The v2 tactical rule set does not touch the sell counter. -/
theorem v2_execute_t_logic_sell_count (P : Params) (s : StratState) (bar : Bar)
    (d : ℕ) : (v2_execute_t_logic P s bar d).sell_count = s.sell_count := by
  simp only [v2_execute_t_logic]
  split_ifs <;> rfl

/-- The v1 DCA step keeps `sell trades recorded = sell counter` and the
counter at most 3. -/
theorem v1_dca_sell_step (P : Params) (s : StratState) (bar : Bar) (d : ℕ)
    (h1 : (sellTrades s.dca_trades).length = s.sell_count)
    (h2 : s.sell_count ≤ 3) :
    (sellTrades (v1_execute_dca_logic P s bar d).dca_trades).length =
      (v1_execute_dca_logic P s bar d).sell_count ∧
    (v1_execute_dca_logic P s bar d).sell_count ≤ 3 := by
  simp only [v1_execute_dca_logic]
  split_ifs <;>
    simp_all [sellTrades, List.filter_append,
      execute_buy_dca_trades, execute_buy_sell_count,
      execute_sell_dca_trades, execute_sell_sell_count,
      buyTradeRecord_side, sellTradeRecord_side] <;>
    omega

/-- The v2 DCA step keeps `sell trades recorded = sell counter` and the
counter at most 3. -/
theorem v2_dca_sell_step (P : Params) (s : StratState) (bar : Bar) (d : ℕ)
    (h1 : (sellTrades s.dca_trades).length = s.sell_count)
    (h2 : s.sell_count ≤ 3) :
    (sellTrades (v2_execute_dca_logic P s bar d).dca_trades).length =
      (v2_execute_dca_logic P s bar d).sell_count ∧
    (v2_execute_dca_logic P s bar d).sell_count ≤ 3 := by
  simp only [v2_execute_dca_logic]
  split_ifs <;>
    simp_all [sellTrades, List.filter_append,
      execute_buy_base_dca_trades, execute_buy_base_sell_count,
      execute_sell_v2_dca_trades, execute_sell_v2_sell_count,
      buyTradeRecord_side, sellTradeRecord_side] <;>
    omega

/-- The v1 bar step keeps `sell trades recorded = sell counter` and the
counter at most 3. -/
theorem v1_on_bar_sell_step (P : Params) (s : StratState) (bar : Bar) (d : ℕ)
    (h1 : (sellTrades s.dca_trades).length = s.sell_count)
    (h2 : s.sell_count ≤ 3) :
    (sellTrades (v1_on_bar P s bar d).dca_trades).length =
      (v1_on_bar P s bar d).sell_count ∧
    (v1_on_bar P s bar d).sell_count ≤ 3 := by
  have hstep := v1_dca_sell_step P s bar d h1 h2
  show (sellTrades
      (v1_execute_t_logic P (v1_execute_dca_logic P s bar d) bar d).dca_trades).length =
        (v1_execute_t_logic P (v1_execute_dca_logic P s bar d) bar d).sell_count ∧
    (v1_execute_t_logic P (v1_execute_dca_logic P s bar d) bar d).sell_count ≤ 3
  rw [v1_execute_t_logic_dca_trades, v1_execute_t_logic_sell_count]
  exact hstep

/-- The v2 bar step keeps `sell trades recorded = sell counter` and the
counter at most 3. -/
theorem v2_on_bar_sell_step (P : Params) (s : StratState) (bar : Bar) (d : ℕ)
    (h1 : (sellTrades s.dca_trades).length = s.sell_count)
    (h2 : s.sell_count ≤ 3) :
    (sellTrades (v2_on_bar P s bar d).dca_trades).length =
      (v2_on_bar P s bar d).sell_count ∧
    (v2_on_bar P s bar d).sell_count ≤ 3 := by
  have hstep := v2_dca_sell_step P s bar d h1 h2
  show (sellTrades
      (v2_execute_t_logic P (v2_execute_dca_logic P s bar d) bar d).dca_trades).length =
        (v2_execute_t_logic P (v2_execute_dca_logic P s bar d) bar d).sell_count ∧
    (v2_execute_t_logic P (v2_execute_dca_logic P s bar d) bar d).sell_count ≤ 3
  rw [v2_execute_t_logic_dca_trades, v2_execute_t_logic_sell_count]
  exact hstep

/-- The invariant over a whole v1 run. -/
theorem v1_run_sell_inv (P : Params) (bars : List (ℕ × Bar)) :
    ∀ s : StratState, (sellTrades s.dca_trades).length = s.sell_count →
      s.sell_count ≤ 3 →
      (sellTrades (v1_run P s bars).dca_trades).length =
        (v1_run P s bars).sell_count ∧ (v1_run P s bars).sell_count ≤ 3 := by
  induction bars with
  | nil => intro s h1 h2; exact ⟨h1, h2⟩
  | cons db rest ih =>
      intro s h1 h2
      have hstep := v1_on_bar_sell_step P s db.2 db.1 h1 h2
      exact ih (v1_on_bar P s db.2 db.1) hstep.1 hstep.2

/-- The invariant over a whole v2 run. -/
theorem v2_run_sell_inv (P : Params) (bars : List (ℕ × Bar)) :
    ∀ s : StratState, (sellTrades s.dca_trades).length = s.sell_count →
      s.sell_count ≤ 3 →
      (sellTrades (v2_run P s bars).dca_trades).length =
        (v2_run P s bars).sell_count ∧ (v2_run P s bars).sell_count ≤ 3 := by
  induction bars with
  | nil => intro s h1 h2; exact ⟨h1, h2⟩
  | cons db rest ih =>
      intro s h1 h2
      have hstep := v2_on_bar_sell_step P s db.2 db.1 h1 h2
      exact ih (v2_on_bar P s db.2 db.1) hstep.1 hstep.2

/-- The NAV recorder does not touch the DCA trade log (v1 text). -/
theorem v1_record_daily_nav_dca_trades (P : Params) (s : StratState) (bar : Bar)
    (d : ℕ) : (v1_record_daily_nav P s bar d).dca_trades = s.dca_trades := rfl

/-- A v1 bar's DCA trade log is decided by the DCA rule set alone. -/
theorem v1_on_bar_dca_trades (P : Params) (s : StratState) (bar : Bar) (d : ℕ) :
    (v1_on_bar P s bar d).dca_trades =
      (v1_execute_dca_logic P s bar d).dca_trades :=
  v1_execute_t_logic_dca_trades P (v1_execute_dca_logic P s bar d) bar d

/-- A v2 bar's DCA trade log is decided by the DCA rule set alone. -/
theorem v2_on_bar_dca_trades (P : Params) (s : StratState) (bar : Bar) (d : ℕ) :
    (v2_on_bar P s bar d).dca_trades =
      (v2_execute_dca_logic P s bar d).dca_trades :=
  v2_execute_t_logic_dca_trades P (v2_execute_dca_logic P s bar d) bar d

/-- With the counter at its cap, the v1 DCA step sells nothing. -/
theorem v1_dca_no_sell_at_cap (P : Params) (s : StratState) (bar : Bar) (d : ℕ)
    (h : 3 ≤ s.sell_count) :
    sellTrades (v1_execute_dca_logic P s bar d).dca_trades =
      sellTrades s.dca_trades := by
  simp only [v1_execute_dca_logic]
  split_ifs <;>
    simp_all [sellTrades, List.filter_append,
      execute_buy_dca_trades, execute_buy_sell_count,
      buyTradeRecord_side] <;>
    omega

/-- With the counter at its cap, the v2 DCA step sells nothing. -/
theorem v2_dca_no_sell_at_cap (P : Params) (s : StratState) (bar : Bar) (d : ℕ)
    (h : 3 ≤ s.sell_count) :
    sellTrades (v2_execute_dca_logic P s bar d).dca_trades =
      sellTrades s.dca_trades := by
  simp only [v2_execute_dca_logic]
  split_ifs <;>
    simp_all [sellTrades, List.filter_append,
      execute_buy_base_dca_trades, execute_buy_base_sell_count,
      buyTradeRecord_side] <;>
    omega

/-- The v1 DCA step appends exactly one buy when the bar is a Monday
with covering cash and a positive lot-rounded share count, none
otherwise; in particular the appended buys do not depend on the sell
counter. -/
theorem v1_dca_buy_count_formula (P : Params) (s : StratState) (bar : Bar)
    (d : ℕ) :
    (buyTrades (v1_execute_dca_logic P s bar d).dca_trades).length =
      (buyTrades s.dca_trades).length +
      (if d % 7 = 0 ∧ s.dca_cash ≥ P.dca_amount_per_week then
        (if calculate_shares P P.dca_amount_per_week bar.close > 0 then 1 else 0)
       else 0) := by
  simp only [v1_execute_dca_logic]
  split_ifs <;>
    simp_all [buyTrades, List.filter_append,
      execute_buy_dca_trades, execute_sell_dca_trades,
      buyTradeRecord_side, sellTradeRecord_side]

/-- The v2 DCA step appends exactly one buy when the bar is a Monday
with cash covering the dynamic amount and a positive lot-rounded share
count, none otherwise; the appended buys do not depend on the sell
counter. -/
theorem v2_dca_buy_count_formula (P : Params) (s : StratState) (bar : Bar)
    (d : ℕ) :
    (buyTrades (v2_execute_dca_logic P s bar d).dca_trades).length =
      (buyTrades s.dca_trades).length +
      (if d % 7 = 0 ∧ s.dca_cash ≥ v2_dynamic_dca_amount P bar then
        (if calculate_shares P (v2_dynamic_dca_amount P bar) bar.close > 0 then 1
         else 0)
       else 0) := by
  simp only [v2_execute_dca_logic]
  split_ifs <;>
    simp_all [buyTrades, List.filter_append,
      execute_buy_base_dca_trades, execute_sell_v2_dca_trades,
      buyTradeRecord_side, sellTradeRecord_side]

/-- C7: over any bar series, v1 and v2 record at most 3 DCA sell trades;
a bar processed with the counter already at 3 appends no DCA sell; and
the DCA buys a bar appends do not depend on the sell counter at all. -/
theorem C7_dca_sell_cap :
    (∀ (P : Params) (bars : List (ℕ × Bar)),
      (sellTrades (v1_run P (v1_init P) bars).dca_trades).length ≤ 3) ∧
    (∀ (P : Params) (bars : List (ℕ × Bar)),
      (sellTrades (v2_run P (v2_init P) bars).dca_trades).length ≤ 3) ∧
    (∀ (P : Params) (s : StratState) (bar : Bar) (d : ℕ), 3 ≤ s.sell_count →
      sellTrades (v1_on_bar P s bar d).dca_trades = sellTrades s.dca_trades) ∧
    (∀ (P : Params) (s : StratState) (bar : Bar) (d : ℕ), 3 ≤ s.sell_count →
      sellTrades (v2_on_bar P s bar d).dca_trades = sellTrades s.dca_trades) ∧
    (∀ (P : Params) (s : StratState) (bar : Bar) (d : ℕ),
      (buyTrades (v1_on_bar P s bar d).dca_trades).length =
        (buyTrades s.dca_trades).length +
        (if d % 7 = 0 ∧ s.dca_cash ≥ P.dca_amount_per_week then
          (if calculate_shares P P.dca_amount_per_week bar.close > 0 then 1 else 0)
         else 0)) ∧
    (∀ (P : Params) (s : StratState) (bar : Bar) (d : ℕ),
      (buyTrades (v2_on_bar P s bar d).dca_trades).length =
        (buyTrades s.dca_trades).length +
        (if d % 7 = 0 ∧ s.dca_cash ≥ v2_dynamic_dca_amount P bar then
          (if calculate_shares P (v2_dynamic_dca_amount P bar) bar.close > 0 then 1
           else 0)
         else 0)) := by
  refine ⟨?_, ?_, ?_, ?_, ?_, ?_⟩
  · intro P bars
    have h := v1_run_sell_inv P bars (v1_init P) rfl
      (by rw [show (v1_init P).sell_count = 0 from rfl]; omega)
    omega
  · intro P bars
    have h := v2_run_sell_inv P bars (v2_init P) rfl
      (by rw [show (v2_init P).sell_count = 0 from rfl]; omega)
    omega
  · intro P s bar d h
    rw [v1_on_bar_dca_trades]
    exact v1_dca_no_sell_at_cap P s bar d h
  · intro P s bar d h
    rw [v2_on_bar_dca_trades]
    exact v2_dca_no_sell_at_cap P s bar d h
  · intro P s bar d
    rw [v1_on_bar_dca_trades]
    exact v1_dca_buy_count_formula P s bar d
  · intro P s bar d
    rw [v2_on_bar_dca_trades]
    exact v2_dca_buy_count_formula P s bar d

/-- For a nonnegative rational, Python truncation is the floor. -/
theorem pyInt_eq_floor (q : ℚ) (h : 0 ≤ q) : pyInt q = ⌊q⌋ := by
  rw [Rat.floor_def]
  exact Int.tdiv_eq_ediv (Rat.num_nonneg.mpr h) (Int.ofNat_nonneg _)

/-- Truncation of a nonnegative rational does not exceed it. -/
theorem pyInt_le (q : ℚ) (h : 0 ≤ q) : (pyInt q : ℚ) ≤ q := by
  rw [pyInt_eq_floor q h]
  exact_mod_cast Int.floor_le q

/-- A positive truncation forces the rational to be at least 1. -/
theorem one_le_of_pyInt_pos (q : ℚ) (h : 0 < pyInt q) : 1 ≤ q := by
  rcases le_or_lt 0 q with h0 | h0
  · rw [pyInt_eq_floor q h0] at h
    exact_mod_cast Int.le_floor.mp h
  · exfalso
    have hnum : q.num ≤ 0 := le_of_lt (Rat.num_neg.mpr h0)
    have hneg : 0 ≤ (-q.num).tdiv (q.den : ℤ) :=
      Int.tdiv_nonneg (by omega) (Int.ofNat_nonneg _)
    have : pyInt q ≤ 0 := by
      unfold pyInt
      rw [show q.num = -(-q.num) by ring, Int.neg_tdiv]
      omega
    omega

/-- The lot-of-100 sizing never buys more than the commission-reduced
budget can pay at the slippage-adjusted price: the share value at the
close is at most `amount - commission(amount)`. -/
theorem calculate_shares_value_le (P : Params) (amount price : ℚ)
    (hp : 0 < price) (hs : 0 ≤ P.slippage)
    (hpos : 0 < calculate_shares P amount price) :
    calculate_shares P amount price * price ≤
      amount - calculate_commission P.commission amount := by
  have hap : 0 < price * (1 + P.slippage) := by
    apply mul_pos hp
    linarith
  set av := amount - calculate_commission P.commission amount with hav
  set q := av / (price * (1 + P.slippage)) with hqdef
  have hsh : calculate_shares P amount price = ((pyInt (q / 100) : ℤ) * 100 : ℤ) := rfl
  have hq : 0 < pyInt (q / 100) := by
    by_contra h
    push_neg at h
    rw [hsh] at hpos
    have : ((pyInt (q / 100) * 100 : ℤ) : ℚ) ≤ 0 := by
      have : (pyInt (q / 100) * 100 : ℤ) ≤ 0 := by
        exact mul_nonpos_of_nonpos_of_nonneg h (by omega)
      exact_mod_cast this
    linarith
  have h1 : (1 : ℚ) ≤ q / 100 := one_le_of_pyInt_pos _ hq
  have hle : ((pyInt (q / 100) : ℤ) : ℚ) ≤ q / 100 :=
    pyInt_le _ (le_trans zero_le_one h1)
  have hsh_le : calculate_shares P amount price ≤ q := by
    rw [hsh]
    push_cast
    nlinarith
  have hq_pos : 0 < q := by linarith
  have hav_pos : 0 < av := by
    by_contra h
    push_neg at h
    have : q ≤ 0 := div_nonpos_of_nonpos_of_nonneg h hap.le
    linarith
  have hqp : q * price = av / (1 + P.slippage) := by
    rw [hqdef]
    field_simp
    ring
  have hstep : calculate_shares P amount price * price ≤ q * price :=
    mul_le_mul_of_nonneg_right hsh_le hp.le
  rw [hqp] at hstep
  have hfin : av / (1 + P.slippage) ≤ av := by
    rw [div_le_iff₀ (by linarith : (0 : ℚ) < 1 + P.slippage)]
    nlinarith
  linarith

/-- A v1/v2 buy sized by `calculate_shares` costs (commission included)
at most the intended amount. -/
theorem buy_cost_le_amount (P : Params) (amount price : ℚ) (hp : 0 < price)
    (hs : 0 ≤ P.slippage) (hr : 0 ≤ P.commission)
    (hpos : 0 < calculate_shares P amount price) :
    calculate_shares P amount price * price +
      calculate_commission P.commission
        (calculate_shares P amount price * price) ≤ amount := by
  have hB := calculate_shares_value_le P amount price hp hs hpos
  have hcm5 : (5 : ℚ) ≤ calculate_commission P.commission amount :=
    le_max_right _ _
  have hcmr : amount * P.commission ≤ calculate_commission P.commission amount :=
    le_max_left _ _
  set B := calculate_shares P amount price * price with hBdef
  have hB0 : 0 < B := mul_pos hpos hp
  rcases le_or_lt (B * P.commission) 5 with hc | hc
  · rw [show calculate_commission P.commission B = 5 from max_eq_right hc]
    linarith
  · rw [show calculate_commission P.commission B = B * P.commission from
      max_eq_left hc.le]
    have h1 : B ≤ amount - amount * P.commission := by linarith
    have hA0 : (0 : ℚ) < amount := by linarith
    nlinarith [mul_le_mul_of_nonneg_right h1
      (show (0 : ℚ) ≤ 1 + P.commission by linarith),
      mul_nonneg (mul_nonneg hA0.le hr) hr]

/-- On a Monday with covering cash and positive lot-rounded sizing, the
v1 DCA step appends exactly the sized buy to the buy records. -/
theorem v1_dca_monday_buy (P : Params) (s : StratState) (bar : Bar) (d : ℕ)
    (hM : d % 7 = 0) (hcash : P.dca_amount_per_week ≤ s.dca_cash)
    (hpos : 0 < calculate_shares P P.dca_amount_per_week bar.close) :
    buyTrades (v1_execute_dca_logic P s bar d).dca_trades =
      buyTrades s.dca_trades ++
        [buyTradeRecord P s .dca
          (calculate_shares P P.dca_amount_per_week bar.close) bar.close d] := by
  simp only [v1_execute_dca_logic]
  split_ifs <;>
    simp_all [ge_iff_le, buyTrades, List.filter_append,
      execute_buy_dca_trades, execute_sell_dca_trades,
      buyTradeRecord_side, sellTradeRecord_side]

/-- The v1 weekly-entry count over a run: with cash covering the weekly
amount at every prefix and a positive share count on every Monday bar,
the run appends exactly one DCA buy per Monday bar. -/
theorem v1_run_weekly_buys (P : Params) (bars : List (ℕ × Bar)) :
    ∀ s : StratState,
      (∀ k ∈ List.range (bars.length + 1),
        P.dca_amount_per_week ≤ (v1_run P s (bars.take k)).dca_cash) →
      (∀ db ∈ bars, db.1 % 7 = 0 →
        0 < calculate_shares P P.dca_amount_per_week db.2.close) →
      (buyTrades (v1_run P s bars).dca_trades).length =
        (buyTrades s.dca_trades).length + mondayCount bars := by
  induction bars with
  | nil =>
      intro s _ _
      simp [v1_run, mondayCount]
  | cons db rest ih =>
      intro s hcash hsh
      have hcash0 : P.dca_amount_per_week ≤ s.dca_cash := by
        have h := hcash 0 (by simp)
        simpa [v1_run] using h
      have hstep : (buyTrades (v1_on_bar P s db.2 db.1).dca_trades).length =
          (buyTrades s.dca_trades).length +
          (if db.1 % 7 = 0 ∧ s.dca_cash ≥ P.dca_amount_per_week then
            (if calculate_shares P P.dca_amount_per_week db.2.close > 0 then 1
             else 0)
           else 0) := by
        rw [v1_on_bar_dca_trades]
        exact v1_dca_buy_count_formula P s db.2 db.1
      have hcash' : ∀ k ∈ List.range (rest.length + 1),
          P.dca_amount_per_week ≤
            (v1_run P (v1_on_bar P s db.2 db.1) (rest.take k)).dca_cash := by
        intro k hk
        have hk' : k + 1 ∈ List.range ((db :: rest).length + 1) := by
          simp only [List.mem_range] at hk ⊢
          simp only [List.length_cons]
          omega
        have h := hcash (k + 1) hk'
        simpa [List.take_succ_cons, v1_run] using h
      have hsh' : ∀ db' ∈ rest, db'.1 % 7 = 0 →
          0 < calculate_shares P P.dca_amount_per_week db'.2.close :=
        fun db' hmem => hsh db' (List.mem_cons_of_mem _ hmem)
      have hrun : v1_run P s (db :: rest) =
          v1_run P (v1_on_bar P s db.2 db.1) rest := rfl
      rw [hrun, ih (v1_on_bar P s db.2 db.1) hcash' hsh', hstep]
      by_cases hMon : db.1 % 7 = 0
      · have hpos := hsh db (List.mem_cons_self _ _) hMon
        rw [if_pos ⟨hMon, hcash0⟩, if_pos hpos]
        simp [mondayCount, List.filter_cons, hMon]
        omega
      · rw [if_neg (fun hcon => hMon hcon.1)]
        simp [mondayCount, List.filter_cons, hMon]

/-- C5 counterexample: a 10-week series with one Monday bar per week and
cash far above the contribution amount at every point, but a close price
of 1000000, produces *zero* accumulation buys under the default
parameters — the lot-of-100 sizing returns 0 shares and the rule skips
every week, where the claim promises exactly 10 buys. -/
theorem C5_expensive_series_no_buys :
    mondayCount c5_expensive_bars = 10 ∧
    calculate_shares defaultParams defaultParams.dca_amount_per_week 1000000 = 0 ∧
    ((List.range (c5_expensive_bars.length + 1)).all fun k =>
      decide (defaultParams.dca_amount_per_week ≤
        (v1_run defaultParams (v1_init defaultParams)
          (c5_expensive_bars.take k)).dca_cash)) = true ∧
    (buyTrades (v1_run defaultParams (v1_init defaultParams)
      c5_expensive_bars).dca_trades).length = 0 := by
  decide

/-- C5 (amended): for a 10-week bar series with one Monday bar per week,
sub-account cash at least the contribution amount at every prefix of the
run, and a positive lot-rounded share count on each Monday bar, the v1
accumulation rule produces exactly 10 buy trades; each Monday buy appends
the trade sized by `calculate_shares` on the contribution amount at the
bar close, and (for a positive close and nonnegative rates) its total
debit, commission included, is at most the contribution amount. -/
theorem C5_weekly_dca (P : Params) (bars : List (ℕ × Bar))
    (hM : mondayCount bars = 10)
    (hcash : ∀ k ∈ List.range (bars.length + 1),
      P.dca_amount_per_week ≤ (v1_run P (v1_init P) (bars.take k)).dca_cash)
    (hsh : ∀ db ∈ bars, db.1 % 7 = 0 →
      0 < calculate_shares P P.dca_amount_per_week db.2.close) :
    (buyTrades (v1_run P (v1_init P) bars).dca_trades).length = 10 ∧
    (∀ (s' : StratState) (bar' : Bar) (d' : ℕ), d' % 7 = 0 →
      P.dca_amount_per_week ≤ s'.dca_cash →
      0 < calculate_shares P P.dca_amount_per_week bar'.close →
      buyTrades (v1_on_bar P s' bar' d').dca_trades =
        buyTrades s'.dca_trades ++
          [buyTradeRecord P s' .dca
            (calculate_shares P P.dca_amount_per_week bar'.close) bar'.close d']) ∧
    (∀ (s' : StratState) (bar' : Bar) (d' : ℕ), 0 < bar'.close →
      0 ≤ P.slippage → 0 ≤ P.commission →
      0 < calculate_shares P P.dca_amount_per_week bar'.close →
      (buyTradeRecord P s' .dca
        (calculate_shares P P.dca_amount_per_week bar'.close)
        bar'.close d').amount ≤ P.dca_amount_per_week) := by
  refine ⟨?_, ?_, ?_⟩
  · have h := v1_run_weekly_buys P bars (v1_init P) hcash hsh
    rw [h, hM]
    rfl
  · intro s' bar' d' hM' hcash' hpos'
    rw [v1_on_bar_dca_trades]
    exact v1_dca_monday_buy P s' bar' d' hM' hcash' hpos'
  · intro s' bar' d' hp hs hr hpos'
    show calculate_shares P P.dca_amount_per_week bar'.close * bar'.close +
      calculate_commission P.commission
        (calculate_shares P P.dca_amount_per_week bar'.close * bar'.close) ≤
      P.dca_amount_per_week
    exact buy_cost_le_amount P P.dca_amount_per_week bar'.close hp hs hr hpos'

/-- C5 witness: the 10-Monday series at close 1 under the default
parameters satisfies the cash and sizing side conditions and yields
exactly 10 accumulation buys. -/
theorem C5_weekly_dca_witness :
    (buyTrades (v1_run defaultParams (v1_init defaultParams)
      c5_cheap_bars).dca_trades).length = 10 :=
  (C5_weekly_dca defaultParams c5_cheap_bars (by decide)
    (by decide) (by decide)).1

end QuantBigA
